import Mathlib

/-!
Verification of the multichain-wallet repository core against its
natural-language specification.

The development shallowly embeds the relevant source functions:

* the market-data gateway route handler (app/api/coingecko/[...path]/route.ts):
  per-client rate limiting, endpoint allow-list, single upstream fetch and
  response mapping;
* the Bitcoin service (lib/utils.ts, BitcoinService): greedy UTXO selection,
  fee computation, dust-threshold change output, broadcast;
* the chain services' getBalance error handling (lib/web3.ts, lib/solana.ts,
  lib/utils.ts);
* key derivation pipelines (store/walletStore.ts createWallet,
  BitcoinService.createWalletFromMnemonic, SolanaService.createWalletFromMnemonic),
  with the external cryptographic primitives kept abstract;
* the encryption utilities (lib/crypto.ts): decrypt fallback behaviour and
  validateMnemonic.

Network fetch results, upstream responses and WebCrypto outcomes are inputs to
the embedded functions; everything else mirrors the source control flow.
-/

/- ===== Market-data gateway (app/api/coingecko/[...path]/route.ts) ===== -/

/-- Per-client rate-limit bucket: requestCounts map entry, source line 8. -/
structure Bucket where
  count : Nat
  resetTime : Nat
deriving DecidableEq, Repr

/-- State of the requestCounts map for one client key (none means no entry). -/
abbrev GwState := Option Bucket

/-- RATE_LIMIT constant, source line 7: 50 requests per minute. -/
def RATE_LIMIT : Nat := 50

/-- isRateLimited, source lines 19 to 34.  Returns the boolean result together
with the updated bucket for the key.  A missing or expired bucket is replaced
by a fresh one with count 1 and resetTime now + 60000. -/
def isRateLimited (now : Nat) (st : GwState) : Bool × GwState :=
  match st with
  | none => (false, some ⟨1, now + 60000⟩)
  | some b =>
    if b.resetTime < now then (false, some ⟨1, now + 60000⟩)
    else if RATE_LIMIT ≤ b.count then (true, some b)
    else (false, some ⟨b.count + 1, b.resetTime⟩)

/-- Outcome of the single upstream fetch made by the handler.  ok means a 2xx
response with a JSON body; httpError is any non-2xx status together with the
optional Retry-After header; timeout is an AbortError after the 10 s bound;
networkError is any other fetch failure. -/
inductive UpstreamResult
  | ok (body : String)
  | httpError (status : Nat) (retryAfter : Option String)
  | timeout
  | networkError
deriving DecidableEq, Repr

/-- The JSON body shapes the handler can answer with, one constructor per
distinct literal in the source.  Only upstreamRateLimited carries a retryAfter
field; the handler rate-limit body (source line 49) is a bare error message. -/
inductive GwBody
  | payload (body : String)
  | rateLimitExceeded
  | missingEndpoint
  | endpointNotAllowed
  | upstreamRateLimited (retryAfter : String)
  | upstreamError (status : Nat)
  | requestTimeout
  | internalError
deriving DecidableEq, Repr

/-- A gateway response: status, body, and the two headers the claims are
about.  CORS headers are attached to every response and are not modelled. -/
structure GwResponse where
  status : Nat
  body : GwBody
  retryAfterHeader : Option String
  cacheControl : Option String
deriving DecidableEq, Repr

/-- allowedEndpoints, source lines 68 to 85. -/
def allowedEndpoints : List String :=
  ["simple/price", "coins/markets", "coins/list", "search", "ping", "global",
   "coins/bitcoin", "coins/ethereum", "coins/tether", "coins/binancecoin",
   "coins/solana", "coins/cardano", "coins/polkadot", "coins/avalanche-2",
   "coins/matic-network", "coins/fantom"]

/-- Character-level prefix test, the semantics of the JS startsWith call. -/
def strStartsWith : List Char → List Char → Bool
  | _, [] => true
  | [], _ :: _ => false
  | c :: cs, d :: ds => c == d && strStartsWith cs ds

/-- isAllowed, source line 87: some entry is a leading substring of the
endpoint (endpoint.startsWith(allowed)). -/
def isAllowedEndpoint (endpoint : String) : Bool :=
  allowedEndpoints.any (fun allowed => strStartsWith endpoint.toList allowed.toList)

/-- Cache-Control value attached to successful responses, source line 158. -/
def cacheControlValue : String := "public, s-maxage=60, stale-while-revalidate=300"

/-- Mapping from the one upstream outcome to the handler response, source
lines 124 to 180: upstream 429 becomes a 429 with the Retry-After header
passed through (default 60), any other non-2xx status is surfaced with that
status, a timeout becomes 504, another fetch failure becomes 500, and a 2xx
body is propagated with the cache directive. -/
def upstreamToResponse : UpstreamResult → GwResponse
  | .ok body => ⟨200, .payload body, none, some cacheControlValue⟩
  | .httpError 429 ra => ⟨429, .upstreamRateLimited (ra.getD "60"), some (ra.getD "60"), none⟩
  | .httpError s _ => ⟨s, .upstreamError s, none, none⟩
  | .timeout => ⟨504, .requestTimeout, none, none⟩
  | .networkError => ⟨500, .internalError, none, none⟩

/-- Result of one handler invocation: the updated rate-limit state, the
response, and how many upstream calls were made. -/
structure GwResult where
  state : GwState
  response : GwResponse
  upstreamCalls : Nat
deriving Repr

/-- The GET handler, source lines 36 to 182, for a fixed client key.  The
upstream argument gives the outcome the nth fetch attempt would have; the
handler consults attempt 0 only, since the source performs a single fetch. -/
def GET (now : Nat) (st : GwState) (endpoint : String)
    (upstream : Nat → UpstreamResult) : GwResult :=
  let rl := isRateLimited now st
  if rl.1 then ⟨rl.2, ⟨429, .rateLimitExceeded, none, none⟩, 0⟩
  else if endpoint = "" then ⟨rl.2, ⟨400, .missingEndpoint, none, none⟩, 0⟩
  else if !(isAllowedEndpoint endpoint) then ⟨rl.2, ⟨403, .endpointNotAllowed, none, none⟩, 0⟩
  else ⟨rl.2, upstreamToResponse (upstream 0), 1⟩

/-- Folds isRateLimited over a list of request times for one client,
returning the final bucket state and the number of admitted requests. -/
def processTimes : List Nat → GwState → GwState × Nat
  | [], st => (st, 0)
  | t :: ts, st =>
    let rl := isRateLimited t st
    let rest := processTimes ts rl.2
    (rest.1, (if rl.1 then 0 else 1) + rest.2)

/-- A mock upstream that fails with HTTP 429 twice and then succeeds. -/
def twoFailsThenOk : Nat → UpstreamResult :=
  fun n => if n < 2 then .httpError 429 none else .ok "success-payload"

/- ===== Bitcoin service (lib/utils.ts, BitcoinService) ===== -/

/-- A UTXO as used by sendTransaction (txid, vout, value in satoshis). -/
structure UTXO where
  txid : String
  vout : Nat
  value : Nat
deriving DecidableEq, Repr

/-- Sum of the satoshi values of a UTXO list. -/
def utxoSum (l : List UTXO) : Nat := (l.map UTXO.value).sum

/-- The input-selection loop of sendTransaction, source lines 535 to 553:
iterate over the fetched UTXOs in order, stopping (break at the top of the
loop body) as soon as the accumulated input value has reached amountSats. -/
def selectGo (amountSats : Nat) : List UTXO → Nat → List UTXO
  | [], _ => []
  | u :: rest, acc =>
    if amountSats ≤ acc then [] else u :: selectGo amountSats rest (acc + u.value)

/-- Input selection starting from an accumulator of 0. -/
def selectUtxos (utxos : List UTXO) (amountSats : Nat) : List UTXO :=
  selectGo amountSats utxos 0

/-- Destination of a transaction output: the recipient address or the sender
(change) address. -/
inductive BtcDest
  | recipient
  | sender
deriving DecidableEq, Repr

/-- A transaction output (address abstracted to its destination role). -/
structure BtcOutput where
  dest : BtcDest
  value : Int
deriving DecidableEq, Repr

/-- Errors that stop sendTransaction before the broadcast POST is issued.
noUtxos is the only check of the source itself (line 518); the
outputsExceedInputs rejection is raised by the bitcoinjs-lib Psbt when the
transaction is extracted with outputs spending more than the inputs. -/
inductive BtcSendError
  | noUtxos
  | outputsExceedInputs
deriving DecidableEq, Repr

/-- The broadcast request the code POSTs to the API: the signed transaction,
abstracted to its selected inputs and its outputs. -/
structure BroadcastRequest where
  inputs : List UTXO
  outputs : List BtcOutput
deriving DecidableEq, Repr

/-- estimatedSize, source line 562: inputCount * 148 + outputCount * 34 + 10. -/
def btcEstimatedSize (inputCount outputCount : Nat) : Nat :=
  inputCount * 148 + outputCount * 34 + 10

/-- Output construction, source lines 556 to 572: one output to the
recipient, then a change output back to the sender exactly when
change > 546 (the dust limit). -/
def btcBuildOutputs (amountSats : Nat) (change : Int) : List BtcOutput :=
  if 546 < change then [⟨.recipient, (amountSats : Int)⟩, ⟨.sender, change⟩]
  else [⟨.recipient, (amountSats : Int)⟩]

/-- BitcoinService.sendTransaction, source lines 500 to 598, from the point
where the UTXO set has been fetched and the amount converted to satoshis.
The fee is computed after selection with outputCount 1 (only the recipient
output exists at that line).  An ok result means the code reached the
broadcast POST with the given signed transaction. -/
def btcSendTransaction (utxos : List UTXO) (amountSats feeRate : Nat) :
    Except BtcSendError BroadcastRequest :=
  if utxos.isEmpty then .error .noUtxos
  else
    let sel := selectUtxos utxos amountSats
    let inputValue := utxoSum sel
    let fee := btcEstimatedSize sel.length 1 * feeRate
    let change : Int := (inputValue : Int) - (amountSats : Int) - (fee : Int)
    let outputs := btcBuildOutputs amountSats change
    if (inputValue : Int) < (outputs.map BtcOutput.value).sum then .error .outputsExceedInputs
    else .ok ⟨sel, outputs⟩

/-- Whether a broadcast request contains a change output back to the sender. -/
def hasChangeOutput (req : BroadcastRequest) : Bool :=
  req.outputs.any (fun o => decide (o.dest = BtcDest.sender))

/- ===== Balance queries (lib/web3.ts, lib/solana.ts, lib/utils.ts) ===== -/

/-- Drops the trailing zero digits of a fractional-digit list. -/
def trimZeros (l : List Char) : List Char :=
  (l.reverse.dropWhile (fun c => c = '0')).reverse

/-- Pads a digit list on the left with zeros up to length d. -/
def padZerosLeft (l : List Char) (d : Nat) : List Char :=
  List.replicate (d - l.length) '0' ++ l

/-- Fractional digits of n / 10 ^ d: the last d decimal digits of n, with
trailing zeros removed. -/
def fracDigits (n d : Nat) : List Char :=
  trimZeros (padZerosLeft (toString (n % 10 ^ d)).toList d)

/-- Decimal rendering of n / 10 ^ d in the style of ethers formatUnits
(exact bigint formatting, always keeping at least one fractional digit, as
in formatEther which renders one ether as 1.0). -/
def formatUnits (n d : Nat) : String :=
  let f := fracDigits n d
  toString (n / 10 ^ d) ++ "." ++ String.mk (if f.isEmpty then ['0'] else f)

/-- Decimal rendering of n / 10 ^ d in the style of the JS Number toString
used by the Bitcoin and Solana services, which prints whole results without
a decimal point.  The JS code divides IEEE doubles; this exact rendering
coincides with it whenever the quotient is exactly representable. -/
def jsNumToString (n d : Nat) : String :=
  let f := fracDigits n d
  if f.isEmpty then toString (n / 10 ^ d)
  else toString (n / 10 ^ d) ++ "." ++ String.mk f

/-- Web3Service.getBalance, lib/web3.ts lines 26 to 34.  The argument is the
fetched wei balance, none when the RPC call threw (network error or
malformed response); the catch branch returns the string 0. -/
def web3GetBalance (fetched : Option Nat) : String :=
  match fetched with
  | some wei => formatUnits wei 18
  | none => "0"

/-- BitcoinService.getBalance, lib/utils.ts lines 468 to 479.  The argument
carries funded_txo_sum and spent_txo_sum from the explorer response, none
when the fetch or the field access threw; satoshis are divided by 10 ^ 8. -/
def btcGetBalance (fetched : Option (Nat × Nat)) : String :=
  match fetched with
  | some p => jsNumToString (p.1 - p.2) 8
  | none => "0"

/-- SolanaService.getBalance, lib/solana.ts lines 42 to 51.  The argument is
the fetched lamport balance, none when the RPC call threw; lamports are
divided by 10 ^ 9. -/
def solGetBalance (fetched : Option Nat) : String :=
  match fetched with
  | some lamports => jsNumToString lamports 9
  | none => "0"

/- ===== Key derivation (walletStore.ts, BitcoinService, SolanaService) ===== -/

/-- Bitcoin address encodings offered by createWalletFromMnemonic. -/
inductive BtcAddrType
  | legacy
  | segwit
  | nativeSegwit
deriving DecidableEq, Repr

/-- The BIP-32 derivation paths appearing in the source, as abstract tokens:
btcLegacy is m/44h/0h/0h/0/0, btcSegwit is m/49h/0h/0h/0/0, btcNativeSegwit
is m/84h/0h/0h/0/0, evm is m/44h/60h/0h/0/0 and solana is m/44h/501h/0h/0h
(h marking hardened indices). -/
inductive HdPath
  | btcLegacy
  | btcSegwit
  | btcNativeSegwit
  | evm
  | solana
deriving DecidableEq, Repr

/-- The external cryptographic primitives the derivation code calls (bip39,
hdkey, ecpair, bitcoinjs-lib payments, ethers, ed25519-hd-key, solana
Keypair).  Each is a pure function; the wallet code composes them. -/
structure HdPrims where
  mnemonicToSeed : String → List Nat
  derivePriv : List Nat → HdPath → List Nat
  pubOfPriv : List Nat → List Nat
  p2pkhAddress : List Nat → String
  p2shSegwitAddress : List Nat → String
  p2wpkhAddress : List Nat → String
  ethAddress : List Nat → String
  seedToHexStr : List Nat → String
  ed25519DerivedSeed : String → HdPath → List Nat
  ed25519PubStr : List Nat → String
  ed25519SecretHex : List Nat → String
  bytesToHex : List Nat → String

/-- The record returned by BitcoinService.createWalletFromMnemonic. -/
structure BitcoinWallet where
  address : String
  privateKey : String
  publicKey : String
  type : BtcAddrType
deriving DecidableEq, Repr

/-- Path selection of createWalletFromMnemonic, lib/utils.ts lines 421 to 423. -/
def btcPathOf : BtcAddrType → HdPath
  | .legacy => .btcLegacy
  | .segwit => .btcSegwit
  | .nativeSegwit => .btcNativeSegwit

/-- BitcoinService.createWalletFromMnemonic, lib/utils.ts lines 413 to 466:
seed from the mnemonic, child key at the type-specific path, and the address
scheme chosen by the same type. -/
def btcCreateWalletFromMnemonic (P : HdPrims) (mnemonic : String) (ty : BtcAddrType) :
    BitcoinWallet :=
  let seed := P.mnemonicToSeed mnemonic
  let priv := P.derivePriv seed (btcPathOf ty)
  let pub := P.pubOfPriv priv
  let address :=
    match ty with
    | .legacy => P.p2pkhAddress pub
    | .segwit => P.p2shSegwitAddress pub
    | .nativeSegwit => P.p2wpkhAddress pub
  ⟨address, P.bytesToHex priv, P.bytesToHex pub, ty⟩

/-- The EVM derivation of walletStore createWallet, store/walletStore.ts
lines 452 to 471: one child key at the EVM path, address from ethers
Wallet; the same pair is reused for every EVM chain. -/
def evmDeriveWallet (P : HdPrims) (mnemonic : String) : String × String :=
  let seed := P.mnemonicToSeed mnemonic
  let priv := P.derivePriv seed .evm
  (P.ethAddress priv, P.bytesToHex priv)

/-- SolanaService.createWalletFromMnemonic, lib/solana.ts lines 30 to 40:
ed25519 derivation at the fixed Solana path over the hex-encoded seed, then
a Keypair from the derived seed. -/
def solCreateWalletFromMnemonic (P : HdPrims) (mnemonic : String) : String × String :=
  let seed := P.mnemonicToSeed mnemonic
  let dseed := P.ed25519DerivedSeed (P.seedToHexStr seed) .solana
  (P.ed25519PubStr dseed, P.ed25519SecretHex dseed)

/-- A trivial instantiation of the primitives, used to evaluate the
derivation pipeline on concrete inputs. -/
def constPrims : HdPrims where
  mnemonicToSeed := fun _ => []
  derivePriv := fun _ _ => []
  pubOfPriv := fun p => p
  p2pkhAddress := fun _ => "a1"
  p2shSegwitAddress := fun _ => "a2"
  p2wpkhAddress := fun _ => "a3"
  ethAddress := fun _ => "a4"
  seedToHexStr := fun _ => ""
  ed25519DerivedSeed := fun _ _ => []
  ed25519PubStr := fun _ => "a5"
  ed25519SecretHex := fun _ => "a6"
  bytesToHex := fun _ => "a7"

/- ===== Encryption utilities (lib/crypto.ts) ===== -/

/-- The XOR loop shared by both xorDecrypt variants, over the base64-decoded
byte codes: byte i is XORed with key code i mod key length. -/
def xorBytes (key : List Nat) : List Nat → Nat → List Nat
  | [], _ => []
  | c :: rest, i => (c ^^^ key.getD (i % key.length) 0) :: xorBytes key rest (i + 1)

/-- xorDecrypt, lib/crypto.ts lines 40 to 54, from the point where the
ciphertext has been base64-decoded to byte codes. -/
def xorDecryptBytes (combined key : List Nat) : List Nat :=
  xorBytes key combined 0

/-- The error the second crypto.ts variant throws from webCryptoDecrypt. -/
inductive CryptoError
  | decryptionFailed
deriving DecidableEq, Repr

/-- webCryptoDecrypt of the first crypto.ts variant, lines 118 to 177, over
the base64-decoded ciphertext bytes.  The subtleResult argument is the
outcome of the AES-GCM decryption under the PBKDF2 key derived from the
password: some plaintext on success, none when it throws, which is what a
wrong password causes (the GCM authentication tag fails to verify).  Inputs
shorter than 28 bytes, and any subtle failure, fall back to XOR decryption
with the supplied password. -/
def webCryptoDecryptV1 (combined pw : List Nat) (subtleResult : Option (List Nat)) :
    List Nat :=
  if combined.length < 28 then xorDecryptBytes combined pw
  else
    match subtleResult with
    | some plain => plain
    | none => xorDecryptBytes combined pw

/-- decrypt of the first crypto.ts variant, lines 192 to 202, on the branch
where a password is provided and WebCrypto is available.  It delegates to
webCryptoDecryptV1, which never throws, so the result is always ok. -/
def decryptV1 (combined pw : List Nat) (subtleResult : Option (List Nat)) :
    Except CryptoError (List Nat) :=
  .ok (webCryptoDecryptV1 combined pw subtleResult)

/-- webCryptoDecrypt of the second crypto.ts variant, lines 364 to 413: on
any failure of the AES-GCM decryption it throws Decryption failed. -/
def webCryptoDecryptV2 (_combined : List Nat) (subtleResult : Option (List Nat)) :
    Except CryptoError (List Nat) :=
  match subtleResult with
  | some plain => .ok plain
  | none => .error .decryptionFailed

/-- decrypt of the second crypto.ts variant, lines 427 to 440, on the branch
where a password is provided: the webCryptoDecrypt error is caught and the
function falls back to XOR decryption with the password, so the result is
again always ok. -/
def decryptV2 (combined pw : List Nat) (subtleResult : Option (List Nat)) :
    Except CryptoError (List Nat) :=
  match webCryptoDecryptV2 combined subtleResult with
  | .ok plain => .ok plain
  | .error _ => .ok (xorDecryptBytes combined pw)

/- ===== validateMnemonic (lib/crypto.ts lines 249 to 252 and 471 to 474) ===== -/

/-- The ASCII whitespace characters matched by the JS regex backslash-s class
(space, tab, line feed, carriage return, vertical tab, form feed). -/
def isJsSpace (c : Char) : Bool :=
  c = ' ' || c = '\t' || c = '\n' || c = '\r' || c = Char.ofNat 11 || c = Char.ofNat 12

/-- The trim call: whitespace removed from both ends. -/
def trimChars (l : List Char) : List Char :=
  ((l.dropWhile isJsSpace).reverse.dropWhile isJsSpace).reverse

/-- Counts maximal runs of non-whitespace characters; the boolean tracks
whether the scan is inside a run. -/
def countRuns : List Char → Bool → Nat
  | [], _ => 0
  | c :: rest, inWord =>
    if isJsSpace c then countRuns rest false
    else (if inWord then 0 else 1) + countRuns rest true

/-- Number of whitespace-separated words of a character list. -/
def wordCount (l : List Char) : Nat := countRuns l false

/-- Length of the array produced by the JS split on the whitespace regex for
an already-trimmed string: splitting the empty string yields one empty
element, otherwise one element per word. -/
def jsSplitLen (trimmed : List Char) : Nat :=
  if trimmed = [] then 1 else wordCount trimmed

/-- validateMnemonic, identical in both crypto.ts variants: trim, split on
whitespace, and accept exactly the word counts 12, 15, 18, 21 and 24.  No
wordlist or checksum check is performed. -/
def validateMnemonic (mnemonic : String) : Bool :=
  let n := jsSplitLen (trimChars mnemonic.toList)
  n = 12 || n = 15 || n = 18 || n = 21 || n = 24

/- ===== Helper lemmas ===== -/

/-- Sum over a cons cell of UTXOs. -/
theorem utxoSum_cons (u : UTXO) (l : List UTXO) :
    utxoSum (u :: l) = u.value + utxoSum l := by
  simp [utxoSum]

/-- The selection loop returns an initial segment of the UTXO list. -/
theorem selectGo_take (amt : Nat) :
    ∀ (l : List UTXO) (acc : Nat), ∃ k, selectGo amt l acc = l.take k := by
  intro l
  induction l with
  | nil => intro acc; exact ⟨0, rfl⟩
  | cons u rest ih =>
    intro acc
    by_cases h : amt ≤ acc
    · exact ⟨0, by simp [selectGo, h]⟩
    · obtain ⟨k, hk⟩ := ih (acc + u.value)
      exact ⟨k + 1, by simp [selectGo, h, hk]⟩

/-- The selection loop either exhausts the list or stops with the target
reached. -/
theorem selectGo_all_or_ge (amt : Nat) :
    ∀ (l : List UTXO) (acc : Nat),
      selectGo amt l acc = l ∨ amt ≤ acc + utxoSum (selectGo amt l acc) := by
  intro l
  induction l with
  | nil => intro acc; left; rfl
  | cons u rest ih =>
    intro acc
    by_cases h : amt ≤ acc
    · right
      simp [selectGo, h, utxoSum]
    · rcases ih (acc + u.value) with h1 | h2
      · left; simp [selectGo, h, h1]
      · right
        simp only [selectGo, if_neg h, utxoSum_cons]
        omega

/-- Before each UTXO the loop takes, the accumulated value is still below the
target. -/
theorem selectGo_strict_before (amt : Nat) :
    ∀ (l : List UTXO) (acc j : Nat), j < (selectGo amt l acc).length →
      acc + utxoSum ((selectGo amt l acc).take j) < amt := by
  intro l
  induction l with
  | nil => intro acc j h; simp [selectGo] at h
  | cons u rest ih =>
    intro acc j h
    by_cases hle : amt ≤ acc
    · simp [selectGo, hle] at h
    · simp only [selectGo, if_neg hle] at h ⊢
      cases j with
      | zero =>
        simp only [List.take_zero, utxoSum, List.map_nil, List.sum_nil, Nat.add_zero]
        omega
      | succ j =>
        have hlen : j < (selectGo amt rest (acc + u.value)).length := by
          simpa using h
        have := ih (acc + u.value) j hlen
        simp only [List.take_succ_cons, utxoSum_cons]
        omega

/-- When the whole list falls short of the target, the loop takes all of it. -/
theorem selectGo_all_of_lt (amt : Nat) :
    ∀ (l : List UTXO) (acc : Nat), acc + utxoSum l < amt → selectGo amt l acc = l := by
  intro l
  induction l with
  | nil => intro acc _; rfl
  | cons u rest ih =>
    intro acc h
    rw [utxoSum_cons] at h
    have hle : ¬ amt ≤ acc := by omega
    simp only [selectGo, if_neg hle]
    rw [ih (acc + u.value) (by omega)]

/-- The selected UTXOs never sum to more than the full set. -/
theorem selectGo_sum_le (amt : Nat) :
    ∀ (l : List UTXO) (acc : Nat), utxoSum (selectGo amt l acc) ≤ utxoSum l := by
  intro l
  induction l with
  | nil => intro acc; simp [selectGo]
  | cons u rest ih =>
    intro acc
    by_cases h : amt ≤ acc
    · simp [selectGo, h, utxoSum]
    · simp only [selectGo, if_neg h, utxoSum_cons]
      have := ih (acc + u.value)
      omega

/-- Shape of the output list: a change output is present exactly when the
change exceeds the dust limit. -/
theorem hasChange_buildOutputs (sel : List UTXO) (amt : Nat) (change : Int) :
    hasChangeOutput ⟨sel, btcBuildOutputs amt change⟩ = true ↔ 546 < change := by
  unfold hasChangeOutput btcBuildOutputs
  split
  · next hc => simp [hc]
  · next hc => simp [hc]

/-- Change at or below the dust limit produces the single recipient output. -/
theorem buildOutputs_eq_single (amt : Nat) (c : Int) (h : ¬ 546 < c) :
    btcBuildOutputs amt c = [⟨.recipient, (amt : Int)⟩] := by
  unfold btcBuildOutputs
  rw [if_neg h]

/- ===== Claim theorems ===== -/

/-- C1 (amended): the Gateway GET handler performs at most one upstream call
per request; its behaviour depends only on the outcome of attempt 0, and for
an admitted, allowed request it surfaces exactly the mapping of that single
outcome (success payload for 2xx, 429 with Retry-After passthrough for an
upstream 429, status passthrough for other errors, 504 for a timeout).  No
retry with backoff exists. -/
theorem c1_gateway_single_upstream_attempt :
    ∀ (now : Nat) (st : GwState) (e : String) (u : Nat → UpstreamResult),
      (GET now st e u).upstreamCalls ≤ 1
      ∧ (∀ u2 : Nat → UpstreamResult, u 0 = u2 0 → GET now st e u = GET now st e u2)
      ∧ ((isRateLimited now st).1 = false → e ≠ "" → isAllowedEndpoint e = true →
          (GET now st e u).upstreamCalls = 1
          ∧ (GET now st e u).response = upstreamToResponse (u 0)) := by
  intro now st e u
  refine ⟨?_, ?_, ?_⟩
  · unfold GET
    dsimp only
    split
    · exact Nat.zero_le 1
    · split
      · exact Nat.zero_le 1
      · split
        · exact Nat.zero_le 1
        · exact Nat.le_refl 1
  · intro u2 h
    unfold GET
    rw [h]
  · intro h1 h2 h3
    simp [GET, h1, h2, h3]

/-- C1 witness: an admitted allowed request against the mock upstream makes
exactly one call and returns the mapped first outcome; the handler result is
unchanged if every later attempt outcome is replaced. -/
theorem c1_witness :
    (GET 0 none "ping" twoFailsThenOk).upstreamCalls = 1
    ∧ (GET 0 none "ping" twoFailsThenOk).response = upstreamToResponse (twoFailsThenOk 0)
    ∧ GET 0 none "ping" twoFailsThenOk
        = GET 0 none "ping" (fun _ => UpstreamResult.httpError 429 none) := by
  obtain ⟨-, hdep, hmain⟩ := c1_gateway_single_upstream_attempt 0 none "ping" twoFailsThenOk
  obtain ⟨h4, h5⟩ := hmain rfl (by decide) (by decide)
  exact ⟨h4, h5, hdep _ (by decide)⟩

/-- C1 counterexample: against an upstream that fails with 429 twice and then
succeeds, the handler returns the upstream 429 error after one single call,
not the success payload the claim promises. -/
theorem c1_counterexample :
    (GET 0 none "ping" twoFailsThenOk).response.status = 429
    ∧ (GET 0 none "ping" twoFailsThenOk).response.body = GwBody.upstreamRateLimited "60"
    ∧ (GET 0 none "ping" twoFailsThenOk).response.body ≠ GwBody.payload "success-payload"
    ∧ (GET 0 none "ping" twoFailsThenOk).upstreamCalls = 1 := by
  exact ⟨rfl, rfl, by decide, rfl⟩

/-- C2 (amended): sendTransaction selects inputs greedily in order from the
fetched UTXO set, accumulating until the selected value reaches the send
target amountSats alone; the estimated fee is computed only after selection
and plays no part in the stopping condition.  The selection is an initial
segment of the UTXO list, every proper prefix of it sums below the target,
and it stops only on reaching the target or exhausting the set. -/
theorem c2_greedy_selection_target_only :
    ∀ (utxos : List UTXO) (amt : Nat),
      (∃ k, selectUtxos utxos amt = utxos.take k)
      ∧ (∀ j, j < (selectUtxos utxos amt).length →
          utxoSum ((selectUtxos utxos amt).take j) < amt)
      ∧ (selectUtxos utxos amt = utxos ∨ amt ≤ utxoSum (selectUtxos utxos amt))
      ∧ (∀ (fr : Nat) (req : BroadcastRequest),
          btcSendTransaction utxos amt fr = Except.ok req →
          req.inputs = selectUtxos utxos amt) := by
  intro utxos amt
  refine ⟨selectGo_take amt utxos 0, ?_, ?_, ?_⟩
  · intro j h
    have := selectGo_strict_before amt utxos 0 j h
    simpa using this
  · simpa using selectGo_all_or_ge amt utxos 0
  · intro fr req h
    simp only [btcSendTransaction] at h
    split at h
    · simp at h
    · split at h
      · simp at h
      · cases h
        rfl

/-- C2 witness: on two 60000-sat UTXOs with a 100000-sat target, the proper
prefix of the selection sums below the target, the selection reaches the
target or exhausts the set, and the ok broadcast request carries exactly the
selected inputs. -/
theorem c2_witness :
    utxoSum ((selectUtxos [⟨"a", 0, 60000⟩, ⟨"b", 0, 60000⟩] 100000).take 1) < 100000
    ∧ (selectUtxos [⟨"a", 0, 60000⟩, ⟨"b", 0, 60000⟩] 100000
          = [⟨"a", 0, 60000⟩, ⟨"b", 0, 60000⟩]
        ∨ 100000 ≤ utxoSum (selectUtxos [⟨"a", 0, 60000⟩, ⟨"b", 0, 60000⟩] 100000))
    ∧ (BroadcastRequest.mk [⟨"a", 0, 60000⟩, ⟨"b", 0, 60000⟩]
          [⟨.recipient, 100000⟩, ⟨.sender, 19660⟩]).inputs
        = selectUtxos [⟨"a", 0, 60000⟩, ⟨"b", 0, 60000⟩] 100000 := by
  obtain ⟨-, h2, h3, h4⟩ :=
    c2_greedy_selection_target_only [⟨"a", 0, 60000⟩, ⟨"b", 0, 60000⟩] 100000
  exact ⟨h2 1 (by decide), h3, h4 1 _ rfl⟩

/-- C2 counterexample: with UTXOs of 100000 and 50000 sats and a target of
100000 sats at fee rate 10, selection stops at the first UTXO even though
its value is below target plus estimated fee and another UTXO was available,
refuting accumulation until target plus fee. -/
theorem c2_counterexample :
    selectUtxos [⟨"a", 0, 100000⟩, ⟨"b", 1, 50000⟩] 100000
      ≠ [⟨"a", 0, 100000⟩, ⟨"b", 1, 50000⟩]
    ∧ utxoSum (selectUtxos [⟨"a", 0, 100000⟩, ⟨"b", 1, 50000⟩] 100000)
        < 100000
          + btcEstimatedSize (selectUtxos [⟨"a", 0, 100000⟩, ⟨"b", 1, 50000⟩] 100000).length 1
              * 10 := by
  exact ⟨by decide, by decide⟩

/-- C3: evaluation at the failing input.  The UTXO set totals 90100 sats,
below the 90000-sat target plus the 3840-sat estimated fee, yet
sendTransaction raises no InsufficientFunds error: it builds, signs and
reaches the broadcast POST with the transaction. -/
theorem c3_insufficient_funds_still_broadcasts :
    btcSendTransaction [⟨"t1", 0, 90100⟩] 90000 20
      = Except.ok ⟨[⟨"t1", 0, 90100⟩], [⟨.recipient, 90000⟩]⟩
    ∧ utxoSum [⟨"t1", 0, 90100⟩] < 90000 + btcEstimatedSize 1 1 * 20 := by
  exact ⟨rfl, by decide⟩

/-- C4: in sendTransaction, whenever the code reaches broadcast, a change
output back to the sender exists exactly when inputValue minus amountSats
minus the fee (estimatedSize times feeRate) exceeds the 546-sat dust
threshold, and when the selected inputs sum to exactly target plus fee the
transaction has no change output. -/
theorem c4_change_output_dust_threshold :
    ∀ (utxos : List UTXO) (amt fr : Nat) (req : BroadcastRequest),
      btcSendTransaction utxos amt fr = Except.ok req →
      (hasChangeOutput req = true
        ↔ 546 < (utxoSum req.inputs : Int) - (amt : Int)
              - ((btcEstimatedSize req.inputs.length 1 * fr : Nat) : Int))
      ∧ ((utxoSum req.inputs : Int)
            = (amt : Int) + ((btcEstimatedSize req.inputs.length 1 * fr : Nat) : Int) →
          req.outputs = [⟨.recipient, (amt : Int)⟩]) := by
  intro utxos amt fr req h
  simp only [btcSendTransaction] at h
  split at h
  · simp at h
  · split at h
    · simp at h
    · cases h
      constructor
      · exact hasChange_buildOutputs _ amt _
      · intro heq
        dsimp only at heq ⊢
        exact buildOutputs_eq_single amt _ (by omega)

/-- Unfolding of isRateLimited on a present bucket. -/
theorem isRateLimited_some (now : Nat) (b : Bucket) :
    isRateLimited now (some b) =
      if b.resetTime < now then (false, some ⟨1, now + 60000⟩)
      else if RATE_LIMIT ≤ b.count then (true, some b)
      else (false, some ⟨b.count + 1, b.resetTime⟩) := rfl

/-- Unfolding of isRateLimited on a bucket given by its two fields. -/
theorem isRateLimited_mk (now c r : Nat) :
    isRateLimited now (some ⟨c, r⟩) =
      if r < now then (false, some ⟨1, now + 60000⟩)
      else if RATE_LIMIT ≤ c then (true, some ⟨c, r⟩)
      else (false, some ⟨c + 1, r⟩) := rfl

/-- Over a run of requests whose times all fall inside the current window,
the number of admitted requests never exceeds the remaining bucket capacity. -/
theorem processTimes_bucket_bound :
    ∀ (ts : List Nat) (c r : Nat), c ≤ RATE_LIMIT → (∀ t ∈ ts, t ≤ r) →
      (processTimes ts (some ⟨c, r⟩)).2 + c ≤ RATE_LIMIT := by
  intro ts
  induction ts with
  | nil =>
    intro c r hc _
    simpa [processTimes] using hc
  | cons t ts ih =>
    intro c r hc hts
    have ht : t ≤ r := hts t (by simp)
    have hts2 : ∀ x ∈ ts, x ≤ r := fun x hx => hts x (by simp [hx])
    by_cases hfull : RATE_LIMIT ≤ c
    · have hrl : isRateLimited t (some ⟨c, r⟩) = (true, some ⟨c, r⟩) := by
        rw [isRateLimited_mk, if_neg (by omega), if_pos hfull]
      have hrec := ih c r hc hts2
      simp only [processTimes, hrl]
      simpa using hrec
    · have hrl : isRateLimited t (some ⟨c, r⟩) = (false, some ⟨c + 1, r⟩) := by
        rw [isRateLimited_mk, if_neg (by omega), if_neg hfull]
      have hrec := ih (c + 1) r (by omega) hts2
      simp only [processTimes, hrl]
      simp only [Bool.false_eq_true, if_false]
      omega

/-- C5 (amended): per-client admission control.  A request from a client
whose bucket is full and unexpired is answered 429 with the bare rate-limit
body, no retryAfterSeconds hint, no upstream call, and an unchanged bucket;
a request arriving after the window resetTime is admitted with a fresh
bucket of count 1; and any request sequence starting a fresh window and
staying within its 60 seconds gets at most RATE_LIMIT requests admitted.
The window is fixed, anchored at the first request, not rolling. -/
theorem c5_rate_limit_admission :
    (∀ (now : Nat) (b : Bucket) (e : String) (u : Nat → UpstreamResult),
        RATE_LIMIT ≤ b.count → ¬ b.resetTime < now →
        GET now (some b) e u
          = ⟨some b, ⟨429, GwBody.rateLimitExceeded, none, none⟩, 0⟩)
    ∧ (∀ (now : Nat) (b : Bucket), b.resetTime < now →
        isRateLimited now (some b) = (false, some ⟨1, now + 60000⟩))
    ∧ (∀ (t0 : Nat) (ts : List Nat), (∀ t ∈ ts, t ≤ t0 + 60000) →
        (processTimes (t0 :: ts) none).2 ≤ RATE_LIMIT) := by
  refine ⟨?_, ?_, ?_⟩
  · intro now b e u hc hr
    have hrl : isRateLimited now (some b) = (true, some b) := by
      rw [isRateLimited_some, if_neg hr, if_pos hc]
    simp [GET, hrl]
  · intro now b h
    rw [isRateLimited_some, if_pos h]
  · intro t0 ts hts
    have h0 : isRateLimited t0 none = (false, some ⟨1, t0 + 60000⟩) := rfl
    have hrec := processTimes_bucket_bound ts 1 (t0 + 60000) (by decide) hts
    simp only [processTimes, h0]
    simp only [Bool.false_eq_true, if_false]
    omega

/-- C5 witness: a full unexpired bucket yields the bare 429 with zero
upstream calls; a request past resetTime resets the bucket to count 1; a
three-request run inside one window admits at most RATE_LIMIT requests. -/
theorem c5_witness :
    GET 10 (some ⟨50, 100⟩) "ping" (fun _ => UpstreamResult.ok "x")
      = ⟨some ⟨50, 100⟩, ⟨429, GwBody.rateLimitExceeded, none, none⟩, 0⟩
    ∧ isRateLimited 200000 (some ⟨50, 100000⟩) = (false, some ⟨1, 260000⟩)
    ∧ (processTimes [0, 1, 2] none).2 ≤ RATE_LIMIT := by
  obtain ⟨h1, h2, h3⟩ := c5_rate_limit_admission
  exact ⟨h1 10 ⟨50, 100⟩ "ping" _ (by decide) (by decide),
    h2 200000 ⟨50, 100000⟩ (by decide), h3 0 [1, 2] (by decide)⟩

/-- C5 counterexample: the rate-limited response is the bare 429 body with
no Retry-After header and no retryAfter field, so the claimed
retryAfterSeconds hint is absent (and no upstream call is made). -/
theorem c5_counterexample :
    (GET 50000 (some ⟨50, 100000⟩) "ping" (fun _ => UpstreamResult.ok "x")).response
      = ⟨429, GwBody.rateLimitExceeded, none, none⟩
    ∧ (GET 50000 (some ⟨50, 100000⟩) "ping"
        (fun _ => UpstreamResult.ok "x")).response.retryAfterHeader = none
    ∧ (GET 50000 (some ⟨50, 100000⟩) "ping"
        (fun _ => UpstreamResult.ok "x")).upstreamCalls = 0 := by
  exact ⟨rfl, rfl, rfl⟩

/-- C6: a request that passes the rate limiter with a nonempty endpoint
matching no allow-list entry is answered 403 EndpointNotAllowed and no
upstream call is made. -/
theorem c6_disallowed_endpoint_403_no_upstream :
    ∀ (now : Nat) (st : GwState) (e : String) (u : Nat → UpstreamResult),
      (isRateLimited now st).1 = false → e ≠ "" → isAllowedEndpoint e = false →
      (GET now st e u).response = ⟨403, GwBody.endpointNotAllowed, none, none⟩
      ∧ (GET now st e u).upstreamCalls = 0 := by
  intro now st e u h1 h2 h3
  simp [GET, h1, h2, h3]

/-- C6 witness: the endpoint coins/dogecoin matches no allow-list entry and
is answered 403 with zero upstream calls. -/
theorem c6_witness :
    (GET 0 none "coins/dogecoin" (fun _ => UpstreamResult.ok "x")).response
      = ⟨403, GwBody.endpointNotAllowed, none, none⟩
    ∧ (GET 0 none "coins/dogecoin" (fun _ => UpstreamResult.ok "x")).upstreamCalls = 0 :=
  c6_disallowed_endpoint_403_no_upstream 0 none "coins/dogecoin" _
    rfl (by decide) (by decide)

/-- C7: wallet derivation is deterministic for every chain and encoding: the
Bitcoin, EVM and Solana pipelines are pure compositions of the library
primitives, so two calls on the same seed phrase agree, and the result is a
function of the seed alone (mnemonics with equal seeds derive identical
addresses and key material). -/
theorem c7_derivation_deterministic :
    ∀ (P : HdPrims) (m : String) (ty : BtcAddrType),
      (btcCreateWalletFromMnemonic P m ty = btcCreateWalletFromMnemonic P m ty
        ∧ evmDeriveWallet P m = evmDeriveWallet P m
        ∧ solCreateWalletFromMnemonic P m = solCreateWalletFromMnemonic P m)
      ∧ (∀ m2 : String, P.mnemonicToSeed m = P.mnemonicToSeed m2 →
          btcCreateWalletFromMnemonic P m ty = btcCreateWalletFromMnemonic P m2 ty
          ∧ evmDeriveWallet P m = evmDeriveWallet P m2
          ∧ solCreateWalletFromMnemonic P m = solCreateWalletFromMnemonic P m2) := by
  intro P m ty
  refine ⟨⟨rfl, rfl, rfl⟩, ?_⟩
  intro m2 h
  unfold btcCreateWalletFromMnemonic evmDeriveWallet solCreateWalletFromMnemonic
  rw [h]
  exact ⟨rfl, rfl, rfl⟩

/-- C7 witness: under the trivial primitives two distinct mnemonics with the
same seed derive the same Bitcoin wallet, applying the determinism theorem. -/
theorem c7_witness :
    btcCreateWalletFromMnemonic constPrims "abandon yard" BtcAddrType.nativeSegwit
      = btcCreateWalletFromMnemonic constPrims "zoo keeper" BtcAddrType.nativeSegwit := by
  have h := (c7_derivation_deterministic constPrims "abandon yard"
      BtcAddrType.nativeSegwit).2 "zoo keeper" rfl
  exact h.1

/-- C8: every chain getBalance returns the string 0 when the underlying
query fails, and on success converts the minimal-unit integer (wei,
satoshi, lamport) to a decimal string in the native unit; the concrete
conversions confirm the unit scaling. -/
theorem c8_get_balance_degrades_to_zero :
    (web3GetBalance none = "0" ∧ btcGetBalance none = "0" ∧ solGetBalance none = "0")
    ∧ (∀ wei, web3GetBalance (some wei) = formatUnits wei 18)
    ∧ (∀ p : Nat × Nat, btcGetBalance (some p) = jsNumToString (p.1 - p.2) 8)
    ∧ (∀ lamports, solGetBalance (some lamports) = jsNumToString lamports 9)
    ∧ web3GetBalance (some 1500000000000000000) = "1.5"
    ∧ btcGetBalance (some (250000000, 100000000)) = "1.5"
    ∧ solGetBalance (some 2500000000) = "2.5" := by
  exact ⟨⟨rfl, rfl, rfl⟩, fun _ => rfl, fun _ => rfl, fun _ => rfl,
    by decide, by decide, by decide⟩

/-- C9 (amended): decrypt surfaces no EncryptionError on a wrong password.
When the AES-GCM decryption fails (the outcome of a wrong password), both
crypto.ts decrypt variants fall back to XOR decryption with the supplied
password and complete with that garbage plaintext; for any subtle outcome
the result is an ok value, never an error. -/
theorem c9_decrypt_falls_back_on_failure :
    ∀ (combined pw : List Nat), 28 ≤ combined.length →
      decryptV1 combined pw none = Except.ok (xorDecryptBytes combined pw)
      ∧ decryptV2 combined pw none = Except.ok (xorDecryptBytes combined pw)
      ∧ (∀ r, (decryptV1 combined pw r).isOk = true ∧ (decryptV2 combined pw r).isOk = true) := by
  intro combined pw h
  refine ⟨?_, rfl, ?_⟩
  · unfold decryptV1 webCryptoDecryptV1
    rw [if_neg (by omega)]
  · intro r
    cases r <;> exact ⟨rfl, rfl⟩

/-- C9 witness: applying the fallback theorem to a 30-byte ciphertext. -/
theorem c9_witness :
    decryptV1 (List.replicate 30 7) [1, 2] none
      = Except.ok (xorDecryptBytes (List.replicate 30 7) [1, 2])
    ∧ decryptV2 (List.replicate 30 7) [1, 2] none
      = Except.ok (xorDecryptBytes (List.replicate 30 7) [1, 2]) := by
  have h := c9_decrypt_falls_back_on_failure (List.replicate 30 7) [1, 2] (by decide)
  exact ⟨h.1, h.2.1⟩

/-- C9 counterexample: a 30-byte ciphertext under a wrong password (AES-GCM
outcome none): both decrypt variants complete and return a value, the XOR
fallback of the ciphertext with that very password, instead of failing with
an EncryptionError-class failure. -/
theorem c9_counterexample :
    (decryptV1 (List.replicate 30 7) [119, 114, 111, 110, 103] none).isOk = true
    ∧ (decryptV2 (List.replicate 30 7) [119, 114, 111, 110, 103] none).isOk = true
    ∧ decryptV1 (List.replicate 30 7) [119, 114, 111, 110, 103] none
        = Except.ok (xorDecryptBytes (List.replicate 30 7) [119, 114, 111, 110, 103]) := by
  exact ⟨rfl, rfl, rfl⟩

/-- C10: validateMnemonic accepts a string exactly when the trimmed string
has 12, 15, 18, 21 or 24 whitespace-separated words; no wordlist or
checksum check exists, so twelve arbitrary non-dictionary words pass. -/
theorem c10_validate_mnemonic_word_count_only :
    (∀ m : String,
        validateMnemonic m = true
          ↔ (wordCount (trimChars m.toList) = 12 ∨ wordCount (trimChars m.toList) = 15
              ∨ wordCount (trimChars m.toList) = 18 ∨ wordCount (trimChars m.toList) = 21
              ∨ wordCount (trimChars m.toList) = 24))
    ∧ validateMnemonic "zig zag quox blip mork fraz lune dorp vex chum polt gnar" = true := by
  constructor
  · intro m
    simp only [validateMnemonic, jsSplitLen, Bool.or_eq_true, decide_eq_true_eq]
    by_cases h : trimChars m.toList = []
    · rw [if_pos h, h]
      simp [wordCount, countRuns]
    · rw [if_neg h]
      tauto
  · decide

/-- C4 witness: a 200000-sat UTXO, 100000-sat target and fee rate 10 give a
change of 98080 sats above the dust limit, so applying the dust-threshold
theorem to the ok broadcast request yields its change output. -/
theorem c4_witness :
    hasChangeOutput ⟨[⟨"a", 0, 200000⟩],
      [⟨BtcDest.recipient, 100000⟩, ⟨BtcDest.sender, 98080⟩]⟩ = true := by
  have h := c4_change_output_dust_threshold [⟨"a", 0, 200000⟩] 100000 10
    ⟨[⟨"a", 0, 200000⟩], [⟨BtcDest.recipient, 100000⟩, ⟨BtcDest.sender, 98080⟩]⟩ rfl
  exact h.1.mpr (by decide)
